import Mathlib

/-
  Formal model of the UltraLog local logger.

  Source files embedded here:
  - src/ultralog/utils.py   (LogFormatter)
  - src/ultralog/local.py   (class UltraLog: log, _flush_batch, _rotate_log,
                             _batch_writer loop, close)

  Modelling conventions:
  - Python strings and byte strings are `List Char` (one `Char` per byte;
    the records produced by the logger are ASCII apart from the message
    payload, and `len(msg_bytes)` is modelled as `List.length`).
  - The destination file and each backup file are modelled as the list of
    write chunks appended to them (`List (List Char)`), in order.  The
    on-disk byte size of a file is the sum of the chunk lengths.
  - The backup chain `fp.1 .. fp.N` is a function `Nat → Option file`;
    `none` means the path does not exist.
  - Wall-clock time is not modelled: the timestamp used by the formatter is
    an explicit input of each `log` call, and the rotation / shutdown
    timeouts never fire in the pure model (they are real-time behaviour).
  - Console output: `_safe_console_output` is called both to mirror
    accepted messages (local.py line 353) and for diagnostic chatter.
    The spec gives the console no contract beyond best effort, so the model
    records only the mirrored accepted messages in `console`; the
    diagnostic strings are dropped.
  - The single background writer thread is modelled by making the drain of
    one batch (`Event.flush`) an explicit event that can interleave
    arbitrarily with producer `log` events.
-/

namespace UltraLog

/-- Byte strings of the Python code, one `Char` per byte. -/
abbrev Str := List Char

/-- Field separator appearing in formatted records, the literal " - ". -/
def sepStr : Str := (" - ").toList

/-- Line terminator appended to every record. -/
def nlStr : Str := ("\n").toList

/-- Python `str.upper()` restricted to ASCII, as used on level names. -/
def pyUpper (s : Str) : Str := s.map Char.toUpper

/-- The `_LOG_LEVELS` table of local.py line 16. -/
def logLevels : List (Str × Nat) :=
  [(("DEBUG").toList, 10), (("INFO").toList, 20), (("WARNING").toList, 30),
   (("ERROR").toList, 40), (("CRITICAL").toList, 50)]

/-- Severity of a level string: `self._LOG_LEVELS.get(level.upper(), 20)`
    (local.py line 344). -/
def levelValue (level : Str) : Nat := ((logLevels.lookup (pyUpper level)).getD 20)

/-- LogFormatter._get_level_prefix (utils.py lines 89-91). -/
def getLevelPrefix (name : Str) (withTime : Bool) (level : Str) : Str :=
  if withTime then sepStr ++ name ++ sepStr ++ level ++ sepStr
  else name ++ sepStr ++ level ++ sepStr

/-- LogFormatter.format_message (utils.py lines 93-97).  The cached
    wall-clock timestamp is passed in as `ts`. -/
def formatMessage (name : Str) (withTime : Bool) (ts msg level : Str) : Str :=
  (if withTime then ts else []) ++ getLevelPrefix name withTime level ++ msg ++ nlStr

/-- Python default whitespace set of `str.rstrip`, restricted to the
    characters that can occur here. -/
def pyWhitespace (c : Char) : Bool :=
  c == ' ' || c == '\n' || c == '\t' || c == '\r'

/-- Python `str.rstrip()` as used on the console mirror text
    (local.py line 349). -/
def pyRstrip (s : Str) : Str := (s.reverse.dropWhile pyWhitespace).reverse

/-- Modelled from the spec: the on-disk record layout of spec section 6,
    `[<YYYY-MM-DD HH:MM:SS> ]- <logger-name> - <LEVEL> - <message>\n`,
    reading the bracketed part (the timestamp followed by one space) as the
    optional timestamp segment.  This is the comparison point for the
    layout claim; the code's own formatter is `formatMessage` above. -/
def specLayout (withTs : Bool) (ts name level msg : Str) : Str :=
  (if withTs then ts ++ [' '] else []) ++ ['-', ' '] ++ name ++ sepStr ++ level ++ sepStr ++ msg ++ nlStr

/-- Configuration fixed at logger construction (local.py lines 26-77). -/
structure Config where
  name : Str
  withTime : Bool
  /-- Whether a destination file path `fp` was configured. -/
  fpSome : Bool
  /-- Minimum severity, `self._level`. -/
  minLevel : Nat
  consoleOutput : Bool
  forceSync : Bool
  enableRotation : Bool
  maxFileSize : Nat
  backupCount : Nat
  batchSize : Nat

/-- Contents of a file as the list of write chunks appended to it. -/
abbrev FileData := List Str

/-- On-disk byte size of a file. -/
def fileBytes (f : FileData) : Nat := (f.map List.length).sum

/-- The file system fragment owned by the logger: the active path and the
    numbered backup chain. -/
structure Fs where
  active : Option FileData
  backups : Nat → Option FileData

/-- Mutable logger state (local.py lines 79-95). -/
structure LogSt where
  fs : Fs
  /-- `self._current_size`. -/
  currentSize : Nat
  /-- `self._closed`. -/
  closed : Bool
  /-- `self._write_queue`, front of the list is the head of the FIFO. -/
  queue : List Str
  /-- Console mirror: the accepted messages echoed at local.py line 353. -/
  console : List Str
  /-- Whether `self._file_handle` is an open handle. -/
  handleOpen : Bool

/-- State right after `UltraLog.__init__` with a file path and
    `truncate_file=True`: file truncated then opened for append. -/
def initSt : LogSt :=
  { fs := { active := some [], backups := fun _ => none },
    currentSize := 0, closed := false, queue := [], console := [],
    handleOpen := true }

/-- Point update of the backup chain. -/
def updateBk (bk : Nat → Option FileData) (i : Nat) (v : Option FileData) :
    Nat → Option FileData :=
  fun j => if j = i then v else bk j

/-- Index sequence `range(backup_count - 1, 0, -1)` of local.py line 209. -/
def downIdx (n : Nat) : List Nat := ((List.range (n - 1)).map (fun i => i + 1)).reverse

/-- Index sequence `range(1, backup_count + 1)` of local.py line 228. -/
def upIdx (n : Nat) : List Nat := (List.range n).map (fun i => i + 1)

/-- The backup-shift loop of local.py lines 209-223: for each index `i`
    from `backup_count - 1` down to `1`, if `fp.i` exists rename it to
    `fp.(i+1)` (overwriting).  The branch `if i > 0 else self.fp` of line
    213 is dead code because the range stops at 1, so the active path is
    never a rename source. -/
def shiftBackups : List Nat → (Nat → Option FileData) → (Nat → Option FileData)
  | [], bk => bk
  | i :: rest, bk =>
    shiftBackups rest
      (if (bk i).isSome then updateBk (updateBk bk (i + 1) (bk i)) i none else bk)

/-- The placeholder loop of local.py lines 227-239: every missing index in
    `1 .. backup_count` is created as an empty file. -/
def fillBackups : List Nat → (Nat → Option FileData) → (Nat → Option FileData)
  | [], bk => bk
  | i :: rest, bk =>
    fillBackups rest (if (bk i).isSome then bk else updateBk bk i (some []))

/-- UltraLog._rotate_log (local.py lines 162-276).  Returns the new state
    and whether the backup shift was actually performed.  Notes:
    - line 172 reads the real on-disk size of the active path; if the path
      is absent the `getsize` call raises and the outer handler of line 269
      leaves the state as is (line 272 finds no file to reopen);
    - lines 175-177: rotation is declined when that size is not above
      `max_file_size`;
    - line 200-206: the oldest backup `fp.N` is removed if present;
    - lines 209-223: the shift loop (see `shiftBackups`);
    - lines 227-239: missing backup indices are filled with empty files;
    - lines 260-264: the active path is reopened in append mode, keeping
      its contents, and `_current_size` is reset to 0.  The active file is
      never renamed to `fp.1`. -/
def rotateLog (cfg : Config) (s : LogSt) : LogSt × Bool :=
  if !cfg.fpSome || !cfg.enableRotation then (s, false)
  else
    match s.fs.active with
    | none => (s, false)
    | some content =>
      if fileBytes content ≤ cfg.maxFileSize then (s, false)
      else
        let bk1 := updateBk s.fs.backups cfg.backupCount none
        let bk2 := shiftBackups (downIdx cfg.backupCount) bk1
        let bk3 := fillBackups (upIdx cfg.backupCount) bk2
        ({ s with fs := { active := some content, backups := bk3 },
                  currentSize := 0, handleOpen := true }, true)

/-- Total byte length of a pending batch (local.py line 307). -/
def batchBytes (batch : List Str) : Nat := (batch.map List.length).sum

/-- UltraLog._flush_batch (local.py lines 302-337).  Returns the new state
    and whether a rotation was actually performed.  Notes:
    - line 304: nothing happens without a file path or with an empty batch;
    - lines 311-315: rotation is triggered when it is enabled and
      `current_size + batch bytes` exceeds `max_file_size`;
    - lines 321-322: `_current_size` is zeroed whenever rotation was
      triggered, even if `_rotate_log` declined to rotate;
    - lines 325-333: the batch is appended chunk by chunk to the active
      path (opened in append mode, created if absent) and `_current_size`
      grows by the bytes written; `force_sync` only flushes. -/
def flushBatch (cfg : Config) (s : LogSt) (batch : List Str) : LogSt × Bool :=
  if !cfg.fpSome || batch.isEmpty then (s, false)
  else
    let bs := batchBytes batch
    let p :=
      if cfg.enableRotation = true ∧ cfg.maxFileSize < s.currentSize + bs then
        (let r := rotateLog cfg s; ({ r.1 with currentSize := 0 }, r.2))
      else (s, false)
    let s1 := p.1
    ({ s1 with fs := { s1.fs with active := some ((s1.fs.active.getD []) ++ batch) },
               currentSize := s1.currentSize + bs }, p.2)

/-- UltraLog.log (local.py lines 339-358).  The cached timestamp is the
    explicit input `ts`. -/
def logStep (cfg : Config) (s : LogSt) (ts msg level : Str) : LogSt :=
  if s.closed then s
  else if levelValue level < cfg.minLevel then s
  else
    let record := formatMessage cfg.name cfg.withTime ts msg level
    let s1 := if cfg.consoleOutput then { s with console := s.console ++ [pyRstrip record] } else s
    if cfg.fpSome then { s1 with queue := s1.queue ++ [record] } else s1

/-- One observable step of the system under a single producer: either the
    producer calls `log`, or the background writer wakes up and drains one
    batch (the body of `_batch_writer`, local.py lines 282-297: pop up to
    `_BATCH_SIZE` records, flush them if any). -/
inductive Event where
  | log (ts msg level : Str)
  | flush

/-- Semantics of one event. -/
def stepEvent (cfg : Config) (s : LogSt) : Event → LogSt
  | .log ts msg level => logStep cfg s ts msg level
  | .flush =>
    let batch := s.queue.take cfg.batchSize
    if batch.isEmpty then s
    else (flushBatch cfg { s with queue := s.queue.drop cfg.batchSize } batch).1

/-- Run of a sequence of events. -/
def runEvents (cfg : Config) (s : LogSt) (evs : List Event) : LogSt :=
  evs.foldl (stepEvent cfg) s

/-- The formatted records of the events' messages whose severity passes
    the configured minimum, in event order. -/
def acceptedRecs (cfg : Config) (evs : List Event) : List Str :=
  evs.filterMap fun e =>
    match e with
    | .log ts msg level =>
      if cfg.minLevel ≤ levelValue level
      then some (formatMessage cfg.name cfg.withTime ts msg level)
      else none
    | .flush => none

/-- The shutdown drain loop of `close` (local.py lines 380-394): while the
    queue is non-empty, pop up to `_BATCH_SIZE` records and flush them.
    The fuel argument stands for the iterations the 5 second shutdown
    budget allows; `close` passes enough fuel to drain everything when the
    batch size is positive. -/
def drainGo (cfg : Config) : Nat → LogSt → LogSt
  | 0, s => s
  | n + 1, s =>
    if s.queue.isEmpty then s
    else
      let batch := s.queue.take cfg.batchSize
      drainGo cfg n
        (if batch.isEmpty then s
         else (flushBatch cfg { s with queue := s.queue.drop cfg.batchSize } batch).1)

/-- UltraLog.close (local.py lines 368-416): return at once if already
    closed, otherwise set the closed flag, drain the queue in batches,
    join the writer thread (no observable effect here) and close the file
    handle. -/
def closeFn (cfg : Config) (s : LogSt) : LogSt :=
  if s.closed then s
  else
    let s1 := { s with closed := true }
    let s2 := drainGo cfg s1.queue.length s1
    { s2 with handleOpen := false }

/-- Contents of the destination file, the empty list when the path is
    absent. -/
def activeL (s : LogSt) : FileData := s.fs.active.getD []

/-- First occurrence split: `splitFirst sep s` returns the part of `s`
    before the first occurrence of `sep` and the part after it.  Used by
    the record scanner, which is described by the spec (a record is read
    back by splitting fields at the separator of the layout). -/
def splitFirst (sep : Str) : Str → Option (Str × Str)
  | [] => none
  | c :: cs =>
    if sep.isPrefixOf (c :: cs) then some ([], (c :: cs).drop sep.length)
    else (splitFirst sep cs).map (fun p => (c :: p.1, p.2))

/-- Modelled from the spec: scanning a record back per the layout of spec
    section 6 — drop the line terminator, then split off the timestamp
    (when the logger writes timestamps), the logger name and the level at
    the " - " separator; the remainder is the message. -/
def scanRecord (withTime : Bool) (record : Str) : Option (Str × Str) :=
  let body := record.dropLast
  if withTime then
    match splitFirst sepStr body with
    | none => none
    | some (_, r1) =>
      match splitFirst sepStr r1 with
      | none => none
      | some (_, r2) =>
        match splitFirst sepStr r2 with
        | none => none
        | some (lvl, rest) => some (lvl, rest)
  else
    match splitFirst sepStr body with
    | none => none
    | some (_, r1) =>
      match splitFirst sepStr r1 with
      | none => none
      | some (lvl, rest) => some (lvl, rest)

/-- A header field is scannable when the separator does not occur anywhere
    in the field followed by the first two separator characters; this
    rules out both a separator inside the field and a field ending in
    " -", which would make an occurrence straddle the field boundary. -/
abbrev sepOK (fld : Str) : Prop := ¬ List.IsInfix sepStr (fld ++ sepStr.dropLast)

/-
  Fault-injected model.  For the error-handling claim the same code paths
  are re-traced in an exception monad: every primitive console or file
  system call may raise, driven by an oracle consulted at an advancing
  tick counter, and the rotation timeout of local.py line 210 is a second
  oracle-driven event.  A `try/except` of the Python source becomes a
  `match` on the `Except` value of the guarded part; functions whose
  Python bodies catch everything are total here by construction, and the
  top-level entry points keep the `Except` type so that "never raises" is
  the statement that they always return `.ok`.
-/

/-- Exceptions distinguished by the handlers of local.py: the rotation
    `TimeoutError` of line 211 versus every other (I/O) exception. -/
inductive PyErr where
  | ioError
  | timeoutError
deriving DecidableEq

/-- Failure pattern of the environment: tick `k` tells whether the `k`-th
    primitive operation (or timeout check) fails. -/
abbrev Oracle := Nat → Bool

/-- Whether an exception-typed computation returned normally. -/
def isOkE {α : Type} : Except PyErr α → Bool
  | .ok _ => true
  | .error _ => false

/-- One fallible primitive call: raises if the oracle says so at the
    current tick, otherwise returns the advanced tick. -/
def primOp (o : Oracle) (k : Nat) : Except PyErr Nat :=
  if o k then .error .ioError else .ok (k + 1)

/-- UltraLog._safe_console_output (local.py lines 150-156): the print may
    fail, the bare `except: pass` swallows the failure. -/
def safeConsoleE (o : Oracle) (cfg : Config) (k : Nat) : Nat :=
  if cfg.consoleOutput then
    match primOp o k with
    | .ok k1 => k1
    | .error _ => k + 1
  else k

/-- UltraLog._open_file (local.py lines 136-148): open for append plus
    `getsize`, any failure is caught, reported and leaves no handle. -/
def openFileE (o : Oracle) (cfg : Config) (s : LogSt) (k : Nat) : LogSt × Nat :=
  if !cfg.fpSome then (s, k)
  else
    match primOp o k with
    | .ok k1 =>
      ({ s with fs := { s.fs with active := some (s.fs.active.getD []) },
                handleOpen := true,
                currentSize := fileBytes (s.fs.active.getD []) }, k1)
    | .error _ => ({ s with handleOpen := false }, safeConsoleE o cfg (k + 1))

/-- Removal of the oldest backup (local.py lines 200-206): attempted only
    when the file exists, failure caught at line 205. -/
def removeOldestE (o : Oracle) (n : Nat) (bk : Nat → Option FileData) (k : Nat) :
    (Nat → Option FileData) × Nat :=
  if (bk n).isSome then
    match primOp o k with
    | .ok k1 => (updateBk bk n none, k1)
    | .error _ => (bk, k + 1)
  else (bk, k)

/-- The backup-shift loop under faults (local.py lines 209-223): at each
    iteration the elapsed-time check of line 210 may raise `TimeoutError`
    (here an oracle event), and each rename may fail, which is caught at
    line 221 and the loop continues.  The error value carries the partial
    backup state at the moment of the raise. -/
def shiftE (o : Oracle) :
    List Nat → (Nat → Option FileData) → Nat →
      Except ((Nat → Option FileData) × Nat) ((Nat → Option FileData) × Nat)
  | [], bk, k => .ok (bk, k)
  | i :: rest, bk, k =>
    if o k then .error (bk, k + 1)
    else if (bk i).isSome then
      match primOp o (k + 1) with
      | .ok k2 => shiftE o rest (updateBk (updateBk bk (i + 1) (bk i)) i none) k2
      | .error _ => shiftE o rest bk (k + 2)
    else shiftE o rest bk (k + 1)

/-- The placeholder loop under faults (local.py lines 227-239): each
    create of a missing backup may fail and is caught at line 238. -/
def fillE (o : Oracle) :
    List Nat → (Nat → Option FileData) → Nat → (Nat → Option FileData) × Nat
  | [], bk, k => (bk, k)
  | i :: rest, bk, k =>
    if (bk i).isSome then fillE o rest bk k
    else
      match primOp o k with
      | .ok k1 => fillE o rest (updateBk bk i (some [])) k1
      | .error _ => fillE o rest bk (k + 1)

/-- Body of `_rotate_log` inside the outer `try` of local.py line 170.
    Errors carry the exception kind and the state at the raise. -/
def rotateBodyE (o : Oracle) (cfg : Config) (s : LogSt) (k : Nat) :
    Except (PyErr × LogSt × Nat) (LogSt × Nat) :=
  match s.fs.active with
  | none => .error (.ioError, s, k + 1)
  | some content =>
    match primOp o k with
    | .error _ => .error (.ioError, s, k + 1)
    | .ok k1 =>
      if fileBytes content ≤ cfg.maxFileSize then .ok (s, k1)
      else
        let k2 := if s.handleOpen then
                    (match primOp o k1 with | .ok kk => kk | .error _ => k1 + 1)
                  else k1
        let s1 := { s with handleOpen := false }
        let r1 := removeOldestE o cfg.backupCount s1.fs.backups k2
        match shiftE o (downIdx cfg.backupCount) r1.1 r1.2 with
        | .error (bkE, kE) =>
          .error (.timeoutError, { s1 with fs := { s1.fs with backups := bkE } }, kE)
        | .ok (bk2, k4) =>
          let r2 := fillE o (upIdx cfg.backupCount) bk2 k4
          let s2 := { s1 with fs := { s1.fs with backups := r2.1 } }
          let r3 := openFileE o cfg s2 r2.2
          .ok ({ r3.1 with currentSize := 0 }, r3.2)

/-- UltraLog._rotate_log under faults (local.py lines 162-276): the
    `except TimeoutError` of line 247 and the `except Exception` of line
    269 both recover by reopening the original path when it still exists,
    so the function as a whole never raises and is total. -/
def rotateE (o : Oracle) (cfg : Config) (s : LogSt) (k : Nat) : LogSt × Nat :=
  if !cfg.fpSome || !cfg.enableRotation then (s, k)
  else
    match rotateBodyE o cfg s k with
    | .ok r => r
    | .error (_, sE, kE) =>
      if sE.fs.active.isSome then openFileE o cfg sE kE else (sE, kE)

/-- The write loop of local.py lines 327-330 under faults: each chunk
    write may fail; a failure aborts the loop keeping the chunks already
    written (the exception is caught by the caller at line 336). -/
def writeE (o : Oracle) : List Str → LogSt → Nat → LogSt × Nat × Bool
  | [], s, k => (s, k, true)
  | r :: rest, s, k =>
    match primOp o k with
    | .ok k1 =>
      writeE o rest
        { s with fs := { s.fs with active := some ((s.fs.active.getD []) ++ [r]) },
                 currentSize := s.currentSize + r.length } k1
    | .error _ => (s, k + 1, false)

/-- UltraLog._flush_batch under faults (local.py lines 302-337): every
    failure of the open, the writes or the sync flush is caught by the
    `except` of line 336, so the function is total. -/
def flushBatchE (o : Oracle) (cfg : Config) (s : LogSt) (batch : List Str) (k : Nat) :
    LogSt × Nat :=
  if !cfg.fpSome || batch.isEmpty then (s, k)
  else
    let bs := batchBytes batch
    let p := if cfg.enableRotation = true ∧ cfg.maxFileSize < s.currentSize + bs then
               (let r := rotateE o cfg s k; ({ r.1 with currentSize := 0 }, r.2))
             else (s, k)
    match primOp o p.2 with
    | .error _ => (p.1, p.2 + 1)
    | .ok k2 =>
      let s2 := { p.1 with fs := { p.1.fs with active := some (p.1.fs.active.getD []) } }
      let w := writeE o batch s2 k2
      if cfg.forceSync = true ∧ w.2.2 = true then
        match primOp o w.2.1 with
        | .ok k4 => (w.1, k4)
        | .error _ => (w.1, w.2.1 + 1)
      else (w.1, w.2.1)

/-- UltraLog.log under faults (local.py lines 339-358): the only fallible
    call is the console mirror, guarded by `_safe_console_output`; the
    queue push cannot fail. -/
def logE (o : Oracle) (cfg : Config) (s : LogSt) (ts msg level : Str) (k : Nat) :
    Except PyErr (LogSt × Nat) :=
  if s.closed then .ok (s, k)
  else if levelValue level < cfg.minLevel then .ok (s, k)
  else
    let record := formatMessage cfg.name cfg.withTime ts msg level
    let s1 := if cfg.consoleOutput then { s with console := s.console ++ [pyRstrip record] } else s
    let k1 := if cfg.consoleOutput then safeConsoleE o cfg k else k
    if cfg.fpSome then .ok ({ s1 with queue := s1.queue ++ [record] }, k1)
    else .ok (s1, k1)

/-- Convenience method `debug` (local.py line 362). -/
def debugE (o : Oracle) (cfg : Config) (s : LogSt) (ts msg : Str) (k : Nat) :=
  logE o cfg s ts msg (("DEBUG").toList) k

/-- Convenience method `info` (local.py line 363). -/
def infoE (o : Oracle) (cfg : Config) (s : LogSt) (ts msg : Str) (k : Nat) :=
  logE o cfg s ts msg (("INFO").toList) k

/-- Convenience method `warning` (local.py line 364). -/
def warningE (o : Oracle) (cfg : Config) (s : LogSt) (ts msg : Str) (k : Nat) :=
  logE o cfg s ts msg (("WARNING").toList) k

/-- Convenience method `error` (local.py line 365). -/
def errorE (o : Oracle) (cfg : Config) (s : LogSt) (ts msg : Str) (k : Nat) :=
  logE o cfg s ts msg (("ERROR").toList) k

/-- Convenience method `critical` (local.py line 366). -/
def criticalE (o : Oracle) (cfg : Config) (s : LogSt) (ts msg : Str) (k : Nat) :=
  logE o cfg s ts msg (("CRITICAL").toList) k

/-- The shutdown drain loop of `close` under faults (local.py lines
    380-394); the flush of each final batch is additionally wrapped in a
    `try` at line 391, and `_flush_batch` is itself total. -/
def drainE (o : Oracle) (cfg : Config) : Nat → LogSt → Nat → LogSt × Nat
  | 0, s, k => (s, k)
  | n + 1, s, k =>
    if s.queue.isEmpty then (s, k)
    else
      let batch := s.queue.take cfg.batchSize
      if batch.isEmpty then drainE o cfg n s k
      else
        let r := flushBatchE o cfg { s with queue := s.queue.drop cfg.batchSize } batch k
        drainE o cfg n r.1 r.2

/-- UltraLog.close under faults (local.py lines 368-416): the final flush
    and close of the file handle may fail and are caught at line 410. -/
def closeE (o : Oracle) (cfg : Config) (s : LogSt) (k : Nat) :
    Except PyErr (LogSt × Nat) :=
  if s.closed then .ok (s, k)
  else
    let s1 := { s with closed := true }
    let r := drainE o cfg s1.queue.length s1 k
    if r.1.handleOpen then
      match primOp o r.2 with
      | .ok k3 => .ok ({ r.1 with handleOpen := false }, k3)
      | .error _ => .ok ({ r.1 with handleOpen := false }, r.2 + 1)
    else .ok (r.1, r.2)

/-
  Helper lemmas.
-/

/-- Rotation never changes the contents of the active path: the code
    closes and reopens it in append mode but never renames or truncates
    it. -/
theorem rotateLog_active (cfg : Config) (s : LogSt) :
    (rotateLog cfg s).1.fs.active = s.fs.active := by
  unfold rotateLog
  split
  · rfl
  · cases hA : s.fs.active with
    | none => simp [hA]
    | some content => simp only [hA]; split <;> simp [hA]

/-- Rotation does not touch the closed flag. -/
theorem rotateLog_closed (cfg : Config) (s : LogSt) :
    (rotateLog cfg s).1.closed = s.closed := by
  unfold rotateLog
  split
  · rfl
  · cases hA : s.fs.active with
    | none => simp [hA]
    | some content => simp only [hA]; split <;> rfl

/-- Rotation does not touch the pending queue. -/
theorem rotateLog_queue (cfg : Config) (s : LogSt) :
    (rotateLog cfg s).1.queue = s.queue := by
  unfold rotateLog
  split
  · rfl
  · cases hA : s.fs.active with
    | none => simp [hA]
    | some content => simp only [hA]; split <;> rfl

/-- Flushing a batch does not touch the closed flag. -/
theorem flushBatch_closed (cfg : Config) (s : LogSt) (batch : List Str) :
    (flushBatch cfg s batch).1.closed = s.closed := by
  unfold flushBatch
  split
  · rfl
  · dsimp only
    split
    · simp [rotateLog_closed]
    · rfl

/-- Flushing a batch does not touch the pending queue. -/
theorem flushBatch_queue (cfg : Config) (s : LogSt) (batch : List Str) :
    (flushBatch cfg s batch).1.queue = s.queue := by
  unfold flushBatch
  split
  · rfl
  · dsimp only
    split
    · simp [rotateLog_queue]
    · rfl

/-- Flushing a batch appends exactly the batch to the destination file
    (rotation, when it happens in between, leaves the active contents in
    place). -/
theorem flushBatch_activeL (cfg : Config) (s : LogSt) (batch : List Str)
    (hfp : cfg.fpSome = true) :
    activeL (flushBatch cfg s batch).1 = activeL s ++ batch := by
  unfold flushBatch
  by_cases hb : batch.isEmpty
  · have : batch = [] := List.isEmpty_iff.mp hb
    simp [hfp, hb, this]
  · have hcond : (!cfg.fpSome || batch.isEmpty) = false := by simp [hfp, hb]
    rw [hcond]
    simp only [Bool.false_eq_true, if_false]
    split
    · simp [activeL, rotateLog_active]
    · simp [activeL]

/-- A log call never changes the closed flag. -/
theorem logStep_closed (cfg : Config) (s : LogSt) (ts msg level : Str) :
    (logStep cfg s ts msg level).closed = s.closed := by
  unfold logStep
  split
  · rfl
  · split
    · rfl
    · dsimp only
      split <;> split <;> rfl

/-- A log call never changes the destination file. -/
theorem logStep_active (cfg : Config) (s : LogSt) (ts msg level : Str) :
    (logStep cfg s ts msg level).fs.active = s.fs.active := by
  unfold logStep
  split
  · rfl
  · split
    · rfl
    · dsimp only
      split <;> split <;> rfl

/-- Queue effect of an accepted log call with a configured file path. -/
theorem logStep_queue_accept (cfg : Config) (s : LogSt) (ts msg level : Str)
    (hcl : s.closed = false) (hacc : cfg.minLevel ≤ levelValue level)
    (hfp : cfg.fpSome = true) :
    (logStep cfg s ts msg level).queue
      = s.queue ++ [formatMessage cfg.name cfg.withTime ts msg level] := by
  unfold logStep
  rw [hcl]
  simp only [Bool.false_eq_true, if_false]
  rw [if_neg (by omega)]
  by_cases hco : cfg.consoleOutput <;> simp [hfp, hco]

/-- One event appends its accepted records to the combined contents of
    file plus queue and keeps the logger open. -/
theorem stepEvent_obs (cfg : Config) (s : LogSt) (e : Event)
    (hfp : cfg.fpSome = true) (hcl : s.closed = false) :
    activeL (stepEvent cfg s e) ++ (stepEvent cfg s e).queue
        = activeL s ++ s.queue ++ acceptedRecs cfg [e]
      ∧ (stepEvent cfg s e).closed = false := by
  cases e with
  | log ts msg level =>
    refine ⟨?_, by simp [stepEvent, logStep_closed, hcl]⟩
    by_cases hacc : cfg.minLevel ≤ levelValue level
    · have hq := logStep_queue_accept cfg s ts msg level hcl hacc hfp
      have ha := logStep_active cfg s ts msg level
      simp [stepEvent, acceptedRecs, activeL, ha, hq, hacc]
    · have hrej : levelValue level < cfg.minLevel := by omega
      have : logStep cfg s ts msg level = s := by
        unfold logStep
        rw [hcl]
        simp [hrej]
      simp [stepEvent, acceptedRecs, this, hacc]
  | flush =>
    by_cases hb : (s.queue.take cfg.batchSize).isEmpty
    · simp [stepEvent, hb, acceptedRecs, hcl]
    · constructor
      · simp only [stepEvent, hb, Bool.false_eq_true, if_false]
        rw [flushBatch_activeL _ _ _ hfp, flushBatch_queue]
        simp [activeL, acceptedRecs, List.append_assoc, List.take_append_drop]
      · simp only [stepEvent, hb, Bool.false_eq_true, if_false]
        rw [flushBatch_closed]
        exact hcl

/-- Accepted records split at a cons. -/
theorem acceptedRecs_cons (cfg : Config) (e : Event) (evs : List Event) :
    acceptedRecs cfg (e :: evs) = acceptedRecs cfg [e] ++ acceptedRecs cfg evs := by
  cases e with
  | log ts msg level =>
    by_cases hacc : cfg.minLevel ≤ levelValue level <;>
      simp [acceptedRecs, List.filterMap_cons, hacc]
  | flush => simp [acceptedRecs, List.filterMap_cons]

/-- Running any interleaving of producer calls and writer wake-ups
    accumulates exactly the accepted records, in order, in the file plus
    the queue, and keeps the logger open. -/
theorem runEvents_obs (cfg : Config) (hfp : cfg.fpSome = true) :
    ∀ (evs : List Event) (s : LogSt), s.closed = false →
      activeL (runEvents cfg s evs) ++ (runEvents cfg s evs).queue
          = activeL s ++ s.queue ++ acceptedRecs cfg evs
        ∧ (runEvents cfg s evs).closed = false := by
  intro evs
  induction evs with
  | nil => intro s hcl; simp [runEvents, acceptedRecs, hcl]
  | cons e evs ih =>
    intro s hcl
    have hstep := stepEvent_obs cfg s e hfp hcl
    have hrun : runEvents cfg s (e :: evs) = runEvents cfg (stepEvent cfg s e) evs := rfl
    have ihs := ih (stepEvent cfg s e) hstep.2
    rw [hrun, acceptedRecs_cons]
    refine ⟨?_, ihs.2⟩
    rw [ihs.1, hstep.1]
    simp [List.append_assoc]

/-- The drain loop does not touch the closed flag. -/
theorem drainGo_closed (cfg : Config) :
    ∀ (n : Nat) (s : LogSt), (drainGo cfg n s).closed = s.closed := by
  intro n
  induction n with
  | zero => intro s; rfl
  | succ n ih =>
    intro s
    unfold drainGo
    split
    · rfl
    · rw [ih]
      split
      · rfl
      · exact flushBatch_closed _ _ _

/-- Given a positive batch size and enough iterations, the drain loop
    moves the whole queue to the end of the file. -/
theorem drainGo_spec (cfg : Config) (hfp : cfg.fpSome = true)
    (hB : 0 < cfg.batchSize) :
    ∀ (n : Nat) (s : LogSt), s.queue.length ≤ n →
      activeL (drainGo cfg n s) = activeL s ++ s.queue := by
  intro n
  induction n with
  | zero =>
    intro s hlen
    have : s.queue = [] := List.eq_nil_of_length_eq_zero (Nat.le_zero.mp hlen)
    simp [drainGo, this]
  | succ n ih =>
    intro s hlen
    unfold drainGo
    split
    · rename_i hq
      have : s.queue = [] := List.isEmpty_iff.mp hq
      simp [this]
    · rename_i hq
      have hqne : s.queue ≠ [] := by
        intro h; exact hq (by simp [h])
      have hbne : ¬(s.queue.take cfg.batchSize).isEmpty = true := by
        simp only [List.isEmpty_iff]
        intro h
        have := congrArg List.length h
        simp [List.length_take] at this
        rcases this with h1 | h1
        · omega
        · exact hqne h1
      dsimp only
      rw [if_neg hbne]
      set s1 := (flushBatch cfg { s with queue := s.queue.drop cfg.batchSize }
        (s.queue.take cfg.batchSize)).1 with hs1
      have hq1 : s1.queue = s.queue.drop cfg.batchSize := by
        rw [hs1, flushBatch_queue]
      have hlen1 : s1.queue.length ≤ n := by
        rw [hq1, List.length_drop]
        omega
      have ha1 : activeL s1 = activeL s ++ s.queue.take cfg.batchSize := by
        rw [hs1, flushBatch_activeL _ _ _ hfp]
        rfl
      rw [ih s1 hlen1, ha1, hq1]
      simp only [List.append_assoc, List.take_append_drop]

/-- A close on an already closed logger returns immediately. -/
theorem closeFn_of_closed (cfg : Config) (s : LogSt) (h : s.closed = true) :
    closeFn cfg s = s := by
  unfold closeFn
  rw [h]
  simp

/-- Closing an open logger appends the whole queue to the file. -/
theorem closeFn_activeL (cfg : Config) (s : LogSt) (hfp : cfg.fpSome = true)
    (hB : 0 < cfg.batchSize) (hcl : s.closed = false) :
    activeL (closeFn cfg s) = activeL s ++ s.queue := by
  unfold closeFn
  rw [hcl]
  simp only [Bool.false_eq_true, if_false]
  exact drainGo_spec cfg hfp hB _ { s with closed := true } (le_refl _)

/-- The state after a close is marked closed. -/
theorem closeFn_closed_after (cfg : Config) (s : LogSt) :
    (closeFn cfg s).closed = true ∨ closeFn cfg s = s := by
  by_cases hc : s.closed
  · exact Or.inr (closeFn_of_closed cfg s hc)
  · left
    have hf : s.closed = false := by simpa using hc
    unfold closeFn
    rw [hf]
    simp only [Bool.false_eq_true, if_false]
    rw [show ∀ t : LogSt, ({ t with handleOpen := false } : LogSt).closed = t.closed
          from fun t => rfl]
    rw [drainGo_closed]

/-
  Claim theorems.
-/

/-- C1: for every sequence of messages submitted by a single producer,
    interleaved arbitrarily with background-writer wake-ups, after `close()`
    returns the destination file consists of exactly the formatted records
    of the messages whose severity passed the configured minimum, in the
    order they were enqueued; in particular it contains every such record,
    in enqueue order. -/
theorem single_producer_file_contents (cfg : Config) (evs : List Event)
    (hfp : cfg.fpSome = true) (hB : 0 < cfg.batchSize) :
    activeL (closeFn cfg (runEvents cfg initSt evs)) = acceptedRecs cfg evs := by
  have hrun := runEvents_obs cfg hfp evs initSt rfl
  rw [closeFn_activeL cfg _ hfp hB hrun.2, hrun.1]
  simp [initSt, activeL]

/-- Witness for C1 at a concrete run: one accepted message, a writer
    wake-up, one filtered message and one more accepted message. -/
theorem single_producer_file_contents_witness :
    activeL (closeFn (Config.mk (("N").toList) false true 20 false false true 1000 2 50)
        (runEvents (Config.mk (("N").toList) false true 20 false false true 1000 2 50) initSt
          [Event.log [] (("a").toList) (("INFO").toList), Event.flush,
           Event.log [] (("x").toList) (("DEBUG").toList),
           Event.log [] (("c").toList) (("ERROR").toList)]))
      = acceptedRecs (Config.mk (("N").toList) false true 20 false false true 1000 2 50)
          [Event.log [] (("a").toList) (("INFO").toList), Event.flush,
           Event.log [] (("x").toList) (("DEBUG").toList),
           Event.log [] (("c").toList) (("ERROR").toList)] ∧
    acceptedRecs (Config.mk (("N").toList) false true 20 false false true 1000 2 50)
          [Event.log [] (("a").toList) (("INFO").toList), Event.flush,
           Event.log [] (("x").toList) (("DEBUG").toList),
           Event.log [] (("c").toList) (("ERROR").toList)]
      = [(("N - INFO - a\n").toList), (("N - ERROR - c\n").toList)] :=
  ⟨single_producer_file_contents (Config.mk (("N").toList) false true 20 false false true 1000 2 50)
      [Event.log [] (("a").toList) (("INFO").toList), Event.flush,
       Event.log [] (("x").toList) (("DEBUG").toList),
       Event.log [] (("c").toList) (("ERROR").toList)] rfl (by decide), by decide⟩

/-- C2: exhibits the divergence of `_rotate_log` from the specified backup
    shift, at a logger with `backup_count = 2`, `max_file_size = 10` and an
    oversized active file holding one 20-byte record and no backups: the
    rotation is performed (`true`), yet afterwards the active path still
    holds its old record (it was reopened in append mode, never renamed to
    index 1 and never emptied) and backup index 1 is a fabricated empty
    file rather than the previous active contents. -/
theorem rotation_fabricates_empty_backup :
    (rotateLog (Config.mk (("N").toList) false true 10 false false true 10 2 50)
        (LogSt.mk (Fs.mk (some [List.replicate 20 'x']) (fun _ => none)) 20 false [] [] true)).2
        = true ∧
      (rotateLog (Config.mk (("N").toList) false true 10 false false true 10 2 50)
          (LogSt.mk (Fs.mk (some [List.replicate 20 'x']) (fun _ => none)) 20 false [] [] true)).1.fs.active
        = some [List.replicate 20 'x'] ∧
      (rotateLog (Config.mk (("N").toList) false true 10 false false true 10 2 50)
          (LogSt.mk (Fs.mk (some [List.replicate 20 'x']) (fun _ => none)) 20 false [] [] true)).1.fs.backups 1
        = some [] ∧
      (rotateLog (Config.mk (("N").toList) false true 10 false false true 10 2 50)
          (LogSt.mk (Fs.mk (some [List.replicate 20 'x']) (fun _ => none)) 20 false [] [] true)).1.fs.backups 2
        = some [] ∧
      (rotateLog (Config.mk (("N").toList) false true 10 false false true 10 2 50)
          (LogSt.mk (Fs.mk (some [List.replicate 20 'x']) (fun _ => none)) 20 false [] [] true)).1.currentSize
        = 0 := by
  refine ⟨rfl, rfl, by decide, by decide, rfl⟩

/-- C3 counterexample: with `max_file_size = 10`, a current size of 9 and
    a pending batch of 5 bytes the claimed condition holds
    (9 + 5 exceeds 10) but no rotation is performed, because `_rotate_log`
    re-checks the on-disk size (9 bytes) against the maximum and declines. -/
theorem flush_rotation_iff_cex :
    ¬(((flushBatch (Config.mk (("N").toList) false true 10 false false true 10 2 50)
          (LogSt.mk (Fs.mk (some [List.replicate 9 'x']) (fun _ => none)) 9 false [] [] true)
          [List.replicate 5 'y']).2 = true) ↔
        ((Config.mk (("N").toList) false true 10 false false true 10 2 50).enableRotation = true ∧
          (Config.mk (("N").toList) false true 10 false false true 10 2 50).maxFileSize <
            (LogSt.mk (Fs.mk (some [List.replicate 9 'x']) (fun _ => none)) 9 false [] [] true).currentSize
              + batchBytes [List.replicate 5 'y'])) := by
  decide

/-- Characterisation of when `_rotate_log` actually shifts the backups. -/
theorem rotateLog_performed_iff (cfg : Config) (s : LogSt) :
    (rotateLog cfg s).2 = true ↔
      (cfg.fpSome = true ∧ cfg.enableRotation = true ∧
        ∃ content, s.fs.active = some content ∧ cfg.maxFileSize < fileBytes content) := by
  unfold rotateLog
  by_cases h1 : (!cfg.fpSome || !cfg.enableRotation) = true
  · rw [if_pos h1]
    simp only [Bool.or_eq_true, Bool.not_eq_true'] at h1
    constructor
    · intro h; exact absurd h (by simp)
    · rintro ⟨hf, he, -⟩
      rcases h1 with h1 | h1 <;> simp_all
  · rw [if_neg h1]
    simp only [Bool.or_eq_true, Bool.not_eq_true', not_or] at h1
    have hf : cfg.fpSome = true := by
      cases hfp : cfg.fpSome <;> simp_all
    have he : cfg.enableRotation = true := by
      cases hen : cfg.enableRotation <;> simp_all
    cases hA : s.fs.active with
    | none =>
      simp [hA, hf, he]
    | some content =>
      dsimp only
      by_cases hsz : fileBytes content ≤ cfg.maxFileSize
      · rw [if_pos hsz]
        simp [hf, he, hA]
        omega
      · rw [if_neg hsz]
        simp [hf, he, hA]
        omega

/-- C3 amended: rotation is performed immediately before a batch write if
    and only if a file path is configured, the batch is non-empty,
    rotation is enabled, `current_size` plus the batch byte length exceeds
    `max_file_size`, and additionally the active file exists on disk with
    an on-disk size itself exceeding `max_file_size` (the extra re-check of
    local.py lines 172-177). -/
theorem flush_rotation_condition (cfg : Config) (s : LogSt) (batch : List Str) :
    (flushBatch cfg s batch).2 = true ↔
      (cfg.fpSome = true ∧ batch ≠ [] ∧ cfg.enableRotation = true ∧
        cfg.maxFileSize < s.currentSize + batchBytes batch ∧
        ∃ content, s.fs.active = some content ∧ cfg.maxFileSize < fileBytes content) := by
  unfold flushBatch
  by_cases hfp : cfg.fpSome = true
  · by_cases hb : batch.isEmpty
    · have hbe : batch = [] := List.isEmpty_iff.mp hb
      rw [if_pos (by simp [hb])]
      simp [hbe]
    · have hbe : batch ≠ [] := by
        intro h; exact hb (by simp [h])
      rw [if_neg (by simp [hfp, hb])]
      dsimp only
      by_cases hneed : cfg.enableRotation = true ∧ cfg.maxFileSize < s.currentSize + batchBytes batch
      · rw [if_pos hneed]
        dsimp only
        rw [rotateLog_performed_iff]
        constructor
        · rintro ⟨-, -, hex⟩
          exact ⟨hfp, hbe, hneed.1, hneed.2, hex⟩
        · rintro ⟨-, -, -, -, hex⟩
          exact ⟨hfp, hneed.1, hex⟩
      · rw [if_neg hneed]
        dsimp only
        constructor
        · intro h; exact absurd h (by simp)
        · rintro ⟨-, -, he, hsz, -⟩
          exact absurd ⟨he, hsz⟩ hneed
  · have hf : cfg.fpSome = false := by
      cases hfp2 : cfg.fpSome <;> simp_all
    rw [if_pos (by simp [hf])]
    constructor
    · intro h; exact absurd h (by simp)
    · rintro ⟨hft, -⟩
      rw [hf] at hft
      exact absurd hft (by simp)

/-- C4: a log call whose severity is below the configured minimum is a
    complete no-op: the state (queue, console mirror, file, everything) is
    unchanged and the call returns normally. -/
theorem log_below_min_noop (cfg : Config) (s : LogSt) (ts msg level : Str)
    (hcl : s.closed = false) (hlv : levelValue level < cfg.minLevel) :
    logStep cfg s ts msg level = s := by
  unfold logStep
  rw [hcl]
  simp [hlv]

/-- Witness for C4: a DEBUG message against a WARNING-level logger. -/
theorem log_below_min_noop_witness :
    initSt.closed = false ∧
      levelValue (("DEBUG").toList)
        < (Config.mk (("N").toList) true true 30 true false true 100 2 50).minLevel ∧
      logStep (Config.mk (("N").toList) true true 30 true false true 100 2 50) initSt
          [] (("x").toList) (("DEBUG").toList) = initSt :=
  ⟨rfl, by decide,
    log_below_min_noop (Config.mk (("N").toList) true true 30 true false true 100 2 50)
      initSt [] (("x").toList) (("DEBUG").toList) rfl (by decide)⟩

/-- C5 counterexample: with timestamps disabled the emitted record is
    `N - INFO - m\n`, not the `- N - INFO - m\n` that remains of the
    claimed layout when only the timestamp segment is removed: the code
    also drops the " - " separator that follows the timestamp. -/
theorem format_layout_cex :
    formatMessage (("N").toList) false [] (("m").toList) (("INFO").toList)
      ≠ specLayout false [] (("N").toList) (("INFO").toList) (("m").toList) := by
  decide

/-- C5 amended: with timestamps enabled the record is exactly
    `<ts> - <name> - <LEVEL> - <message>\n` (matching the spec layout with
    the timestamp segment present); with timestamps disabled it is exactly
    `<name> - <LEVEL> - <message>\n`, i.e. the separator following the
    timestamp is omitted together with the timestamp. -/
theorem format_layout_amended (name ts msg level : Str) :
    formatMessage name true ts msg level
        = ts ++ sepStr ++ name ++ sepStr ++ level ++ sepStr ++ msg ++ nlStr
      ∧ formatMessage name true ts msg level = specLayout true ts name level msg
      ∧ formatMessage name false ts msg level
        = name ++ sepStr ++ level ++ sepStr ++ msg ++ nlStr := by
  have hs : sepStr = ' ' :: '-' :: ' ' :: [] := rfl
  refine ⟨?_, ?_, ?_⟩ <;> simp [formatMessage, getLevelPrefix, specLayout, hs]

/-- C7: `close()` is idempotent: closing an already-closed logger changes
    nothing, so a second close returns the state of the first unchanged -
    file contents included. -/
theorem closeFn_idem (cfg : Config) (s : LogSt) :
    closeFn cfg (closeFn cfg s) = closeFn cfg s := by
  rcases closeFn_closed_after cfg s with h | h
  · exact closeFn_of_closed cfg _ h
  · rw [h]
    exact h

/-- C9: a log call made after `close()` set the closed flag returns
    immediately with no side effect: the state is exactly unchanged. -/
theorem log_after_close_noop (cfg : Config) (s : LogSt) (ts msg level : Str)
    (hcl : s.closed = true) : logStep cfg s ts msg level = s := by
  unfold logStep
  rw [hcl]
  simp

/-- Witness for C9: logging on a closed logger. -/
theorem log_after_close_noop_witness :
    ({ initSt with closed := true } : LogSt).closed = true ∧
      logStep (Config.mk (("N").toList) true true 10 true false true 100 2 50)
          { initSt with closed := true } [] (("x").toList) (("INFO").toList)
        = { initSt with closed := true } :=
  ⟨rfl,
    log_after_close_noop (Config.mk (("N").toList) true true 10 true false true 100 2 50)
      { initSt with closed := true } [] (("x").toList) (("INFO").toList) rfl⟩

/-- C10: a level string whose upper-cased form is not in the level table
    gets severity 20 (equal to INFO) for the minimum-severity filter, and
    when accepted the enqueued record embeds the level string exactly as
    the caller supplied it (not upper-cased, not normalised). -/
theorem unknown_level_treated_as_info (cfg : Config) (s : LogSt) (ts msg level : Str)
    (hl : logLevels.lookup (pyUpper level) = none)
    (hcl : s.closed = false) (hmin : cfg.minLevel ≤ 20) (hfp : cfg.fpSome = true) :
    levelValue level = 20 ∧
      (logStep cfg s ts msg level).queue
        = s.queue ++ [formatMessage cfg.name cfg.withTime ts msg level] ∧
      formatMessage cfg.name cfg.withTime ts msg level
        = (if cfg.withTime then ts ++ sepStr else [])
            ++ cfg.name ++ sepStr ++ level ++ sepStr ++ msg ++ nlStr := by
  have h20 : levelValue level = 20 := by simp [levelValue, hl]
  refine ⟨h20, ?_, ?_⟩
  · exact logStep_queue_accept cfg s ts msg level hcl (by omega) hfp
  · cases hw : cfg.withTime <;>
      simp [formatMessage, getLevelPrefix, hw, List.append_assoc]

/-- Witness for C10: the made-up level "Notice". -/
theorem unknown_level_treated_as_info_witness :
    logLevels.lookup (pyUpper (("Notice").toList)) = none ∧
      levelValue (("Notice").toList) = 20 ∧
      (logStep (Config.mk (("N").toList) false true 10 false false true 100 2 50) initSt
          [] (("m").toList) (("Notice").toList)).queue
        = initSt.queue
            ++ [formatMessage (("N").toList) false [] (("m").toList) (("Notice").toList)] :=
  ⟨by decide,
    (unknown_level_treated_as_info (Config.mk (("N").toList) false true 10 false false true 100 2 50)
      initSt [] (("m").toList) (("Notice").toList) (by decide) rfl (by decide) rfl).1,
    (unknown_level_treated_as_info (Config.mk (("N").toList) false true 10 false false true 100 2 50)
      initSt [] (("m").toList) (("Notice").toList) (by decide) rfl (by decide) rfl).2.1⟩

/-- Unfolding of `splitFirst` when the separator starts right here. -/
theorem splitFirst_here (sep s : Str) (hne : s ≠ []) (h : sep.isPrefixOf s = true) :
    splitFirst sep s = some ([], s.drop sep.length) := by
  cases s with
  | nil => exact absurd rfl hne
  | cons c cs => unfold splitFirst; rw [if_pos h]

/-- Unfolding of `splitFirst` when the separator does not start here. -/
theorem splitFirst_later (sep : Str) (c : Char) (cs : Str)
    (h : ¬ sep.isPrefixOf (c :: cs) = true) :
    splitFirst sep (c :: cs) = (splitFirst sep cs).map (fun p => (c :: p.1, p.2)) := by
  simp only [splitFirst]
  rw [if_neg h]

/-- The first-occurrence split recovers the field exactly when the
    separator cannot start anywhere strictly inside the field part. -/
theorem splitFirst_exact (sep b : Str) :
    ∀ a : Str, sep ≠ [] →
      (∀ a2 : Str, a2 <:+ a → a2 ≠ [] → ¬ sep.isPrefixOf (a2 ++ (sep ++ b)) = true) →
      splitFirst sep (a ++ (sep ++ b)) = some (a, b) := by
  intro a
  induction a with
  | nil =>
    intro hsep H
    rw [List.nil_append]
    have hne : sep ++ b ≠ [] := by
      intro h
      exact hsep (List.append_eq_nil.mp h).1
    rw [splitFirst_here sep (sep ++ b) hne
      (List.isPrefixOf_iff_prefix.mpr (List.prefix_append sep b))]
    rw [List.drop_left]
  | cons c a' ih =>
    intro hsep H
    have hnot : ¬ sep.isPrefixOf ((c :: a') ++ (sep ++ b)) = true :=
      H (c :: a') (List.suffix_refl _) (List.cons_ne_nil c a')
    rw [List.cons_append]
    rw [splitFirst_later sep c (a' ++ (sep ++ b)) (by simpa using hnot)]
    rw [ih hsep (fun a2 hsuf hne => H a2 (hsuf.trans (List.suffix_cons c a')) hne)]
    rfl

/-- A scannable field admits no separator start strictly inside it. -/
theorem sepOK_no_early_hit (fld : Str) (hOK : sepOK fld) (b : Str) :
    ∀ a2 : Str, a2 <:+ fld → a2 ≠ [] →
      ¬ sepStr.isPrefixOf (a2 ++ (sepStr ++ b)) = true := by
  intro a2 hsuf hne hpre
  rw [List.isPrefixOf_iff_prefix] at hpre
  have htake := List.prefix_iff_eq_take.mp hpre
  have hlen : sepStr.length ≤ (a2 ++ sepStr.dropLast).length := by
    have h1 : 1 ≤ a2.length := by
      cases a2 with
      | nil => exact absurd rfl hne
      | cons _ _ => simp
    have h2 : sepStr.length = 3 := rfl
    have h3 : (sepStr.dropLast).length = 2 := rfl
    simp only [List.length_append]
    omega
  have hre : a2 ++ (sepStr ++ b) = (a2 ++ sepStr.dropLast) ++ ([' '] ++ b) := by
    conv_lhs => rw [show sepStr = sepStr.dropLast ++ [' '] from rfl]
    simp [List.append_assoc]
  rw [hre, List.take_append_of_le_length hlen] at htake
  have hpref2 : sepStr <+: (a2 ++ sepStr.dropLast) := by
    rw [List.prefix_iff_eq_take]
    exact htake
  rcases hsuf with ⟨t, ht⟩
  have hsuf2 : (a2 ++ sepStr.dropLast) <:+ (fld ++ sepStr.dropLast) :=
    ⟨t, by rw [← ht]; simp [List.append_assoc]⟩
  exact hOK ((hpref2.isInfix).trans hsuf2.isInfix)

/-- C8 counterexample: the level token "A - B" (any level string is passed
    through verbatim, see C10) formats to `N - A - B - m\n`, and scanning
    that record back per the layout yields level "A" and message "B - m",
    not the original pair. -/
theorem format_scan_roundtrip_cex :
    scanRecord false (formatMessage (("N").toList) false [] (("m").toList) (("A - B").toList))
      ≠ some ((("A - B").toList), (("m").toList)) := by
  decide

/-- C8 amended: formatting then scanning back recovers the exact level
    token and message text for every message, provided the timestamp,
    logger name and level token are scannable: none of them contains the
    separator " - " or ends in " -".  The message itself is unrestricted:
    it may contain the separator and is still recovered exactly. -/
theorem format_scan_roundtrip (name ts msg level : Str)
    (hts : sepOK ts) (hname : sepOK name) (hlevel : sepOK level) :
    scanRecord true (formatMessage name true ts msg level) = some (level, msg) ∧
      scanRecord false (formatMessage name false ts msg level) = some (level, msg) := by
  have hsepne : sepStr ≠ [] := by decide
  have hnl : nlStr = ['\n'] := rfl
  have h2 : splitFirst sepStr (level ++ (sepStr ++ msg)) = some (level, msg) :=
    splitFirst_exact sepStr msg level hsepne (sepOK_no_early_hit level hlevel msg)
  constructor
  · have hrecT : formatMessage name true ts msg level
        = (ts ++ (sepStr ++ (name ++ (sepStr ++ (level ++ (sepStr ++ msg)))))) ++ ['\n'] := by
      simp [formatMessage, getLevelPrefix, hnl, List.append_assoc]
    have h0 : splitFirst sepStr
          (ts ++ (sepStr ++ (name ++ (sepStr ++ (level ++ (sepStr ++ msg))))))
        = some (ts, name ++ (sepStr ++ (level ++ (sepStr ++ msg)))) :=
      splitFirst_exact sepStr _ ts hsepne (sepOK_no_early_hit ts hts _)
    have h1 : splitFirst sepStr (name ++ (sepStr ++ (level ++ (sepStr ++ msg))))
        = some (name, level ++ (sepStr ++ msg)) :=
      splitFirst_exact sepStr _ name hsepne (sepOK_no_early_hit name hname _)
    simp only [scanRecord, hrecT, List.dropLast_concat]
    simp [h0, h1, h2]
  · have hrecF : formatMessage name false ts msg level
        = (name ++ (sepStr ++ (level ++ (sepStr ++ msg)))) ++ ['\n'] := by
      simp [formatMessage, getLevelPrefix, hnl, List.append_assoc]
    have h1 : splitFirst sepStr (name ++ (sepStr ++ (level ++ (sepStr ++ msg))))
        = some (name, level ++ (sepStr ++ msg)) :=
      splitFirst_exact sepStr _ name hsepne (sepOK_no_early_hit name hname _)
    simp only [scanRecord, hrecF, List.dropLast_concat]
    simp [h1, h2]

/-- Witness for C8 at a realistic record, with a message containing the
    separator. -/
theorem format_scan_roundtrip_witness :
    sepOK (("2024-01-02 10:00:00").toList) ∧ sepOK (("UltraLogger").toList)
      ∧ sepOK (("INFO").toList)
      ∧ scanRecord true (formatMessage (("UltraLogger").toList) true
            (("2024-01-02 10:00:00").toList) (("hello - world").toList) (("INFO").toList))
          = some ((("INFO").toList), (("hello - world").toList)) :=
  ⟨by decide, by decide, by decide,
    (format_scan_roundtrip (("UltraLogger").toList) (("2024-01-02 10:00:00").toList)
      (("hello - world").toList) (("INFO").toList) (by decide) (by decide) (by decide)).1⟩

/-- A faulty log call always returns normally. -/
theorem logE_isOk (o : Oracle) (cfg : Config) (s : LogSt) (ts msg level : Str) (k : Nat) :
    isOkE (logE o cfg s ts msg level k) = true := by
  unfold logE
  split
  · rfl
  · split
    · rfl
    · dsimp only
      split <;> rfl

/-- A faulty close call always returns normally. -/
theorem closeE_isOk (o : Oracle) (cfg : Config) (s : LogSt) (k : Nat) :
    isOkE (closeE o cfg s k) = true := by
  unfold closeE
  split
  · rfl
  · dsimp only
    split
    · split <;> rfl
    · rfl

/-- C6: under every pattern of console and file-system failures (file
    cannot be opened, written, renamed, removed, synced or closed, and
    rotation may time out), none of `log`, `debug`, `info`, `warning`,
    `error`, `critical` or `close` raises to the caller: every call
    returns normally.  The batch flush and rotation helpers are total
    functions of the model because the code catches every exception
    inside them. -/
theorem logging_calls_never_raise (o : Oracle) (cfg : Config) (s : LogSt)
    (ts msg level : Str) (k : Nat) :
    isOkE (logE o cfg s ts msg level k) = true ∧
      isOkE (debugE o cfg s ts msg k) = true ∧
      isOkE (infoE o cfg s ts msg k) = true ∧
      isOkE (warningE o cfg s ts msg k) = true ∧
      isOkE (errorE o cfg s ts msg k) = true ∧
      isOkE (criticalE o cfg s ts msg k) = true ∧
      isOkE (closeE o cfg s k) = true :=
  ⟨logE_isOk o cfg s ts msg level k,
    logE_isOk o cfg s ts msg _ k, logE_isOk o cfg s ts msg _ k,
    logE_isOk o cfg s ts msg _ k, logE_isOk o cfg s ts msg _ k,
    logE_isOk o cfg s ts msg _ k, closeE_isOk o cfg s k⟩

end UltraLog
